import Mathlib

/-!
Shallow embedding of the node-sheetbase repository (src/lib/spreadsheet.js,
src/lib/sheet.js) and verification of its natural-language specification.

Modelling conventions:
* JavaScript strings are Lean `String`; JS numbers are `Int`/`Nat` (the claims
  under verification only involve integer arithmetic, so IEEE-754 precision is
  not modelled).
* A grid cell is `Option String`: `none` models the `null` produced by
  `load` for cells without `userEnteredValue`, `some s` models a text cell.
* JS objects used as string-keyed records are association lists with
  JS-object assignment semantics (`jsSet`: overwrite in place, else append).
* Fallible code (JS `throw`) returns `Except JErr`.
* Range strings such as `'Title'!A2:ZZ3` are modelled structurally by
  `RangeRef` (sheet title, start column letters, start row, end column
  letters, end row) rather than by string concatenation.
-/

namespace Sheetbase

/-- A JS value stored in a document field: a string cell value or the numeric
`_row` field. -/
inductive JsVal where
  | s (v : String)
  | n (v : Int)
deriving DecidableEq

/-- A grid cell: `none` is the `null` cell, `some s` a text cell. -/
abbrev Cell := Option String

/-- Models `v || ''` applied to a cell: `null`/absent and `''` both give `''`. -/
def cellStr : Cell → String
  | none => ""
  | some s => s

/-- JS `String(x)` for a possibly-undefined document field value
(`String(undefined) = "undefined"`). -/
def jsStr : Option JsVal → String
  | none => "undefined"
  | some (.s v) => v
  | some (.n v) => toString v

/-- JS truthiness of a document field value (`undefined`, `''` and `0` are
falsy). -/
def jsTruthy : Option JsVal → Bool
  | none => false
  | some (.s v) => v ≠ ""
  | some (.n v) => v ≠ 0

/-- JS object property assignment on an association list: overwrite the
existing entry in place, otherwise append (JS insertion order). -/
def jsSet : List (String × JsVal) → String → JsVal → List (String × JsVal)
  | [], k, v => [(k, v)]
  | (k', v') :: t, k, v => if k' = k then (k', v) :: t else (k', v') :: jsSet t k v

/-- JS object property read on an association list. -/
def jsLookup : List (String × JsVal) → String → Option JsVal
  | [], _ => none
  | (k', v') :: t, k => if k' = k then some v' else jsLookup t k

/-- JS `Array.prototype.slice(s, e)` with signed indices (negative indices
count from the end, out-of-range indices are clamped). -/
def jsSlice (l : List α) (s e : Int) : List α :=
  let n : Int := l.length
  let lo : Int := if s < 0 then max (n + s) 0 else min s n
  let hi : Int := if e < 0 then max (n + e) 0 else min e n
  (l.drop lo.toNat).take (hi - lo).toNat

/-- Stable insertion of one element behind all comparator-not-greater
elements; models the stable JS `Array.prototype.sort`. -/
def insertCmp (cmp : α → α → Int) (x : α) : List α → List α
  | [] => [x]
  | y :: t => if cmp x y < 0 then x :: y :: t else y :: insertCmp cmp x t

/-- Stable sort by a JS comparator (insertion sort; JS sort is stable). -/
def sortJS (cmp : α → α → Int) (l : List α) : List α :=
  l.foldl (fun acc x => insertCmp cmp x acc) []

/-- ASCII decimal digit test (the `\d` character class). -/
def isDigitC (c : Char) : Bool := 48 ≤ c.toNat && c.toNat ≤ 57

/-- JS whitespace test, restricted to the ASCII whitespace that `parseInt`
strips. -/
def isJsSpace (c : Char) : Bool :=
  c.toNat = 32 || c.toNat = 9 || c.toNat = 10 || c.toNat = 13

/-- Accumulate a decimal digit list into a `Nat` (most significant first). -/
def digitsFold (l : List Char) : Nat :=
  l.foldl (fun a c => 10 * a + (c.toNat - 48)) 0

/-- The `/^\d+$/` regex test: one or more decimal digits and nothing else. -/
def digitsOnly (l : List Char) : Bool := !l.isEmpty && l.all isDigitC

/-- JS `parseInt(s)`: strip leading whitespace, optional sign, then the
longest decimal digit prefix; `none` models `NaN`. -/
def parseIntJS (s : String) : Option Int :=
  match s.data.dropWhile isJsSpace with
  | [] => none
  | c :: rest =>
      if c = '-' then (digitsPrefix rest).map (fun n => -(n : Int))
      else if c = '+' then (digitsPrefix rest).map (fun n => (n : Int))
      else (digitsPrefix (c :: rest)).map (fun n => (n : Int))
where
  /-- Longest decimal digit prefix, `none` when there is none. -/
  digitsPrefix (l : List Char) : Option Nat :=
    let ds := l.takeWhile isDigitC
    if ds.isEmpty then none else some (digitsFold ds)

/-- JS `Number(s)` coercion for the integral strings the code can produce:
the empty/whitespace string is `0`, an optionally signed all-digit string is
its value, anything else is `NaN` (`none`).  (Fractional and exotic numeric
forms are outside the integer model.) -/
def jsNumber (s : String) : Option Int :=
  let cs := s.data.dropWhile isJsSpace
  let cs := (cs.reverse.dropWhile isJsSpace).reverse
  match cs with
  | [] => some 0
  | '-' :: rest => if digitsOnly rest then some (-(digitsFold rest : Int)) else none
  | '+' :: rest => if digitsOnly rest then some (digitsFold rest : Int) else none
  | rest => if digitsOnly rest then some (digitsFold rest : Int) else none

/-! ## Column letter conversions

`Sheet.columnToLetter` (sheet.js) and `Spreadsheet.columnLetterToIndex`
(spreadsheet.js).  Letter sequences are modelled as lists of character codes
(`fromCharCode`/`charCodeAt` work on codes). -/

/-- Models `Spreadsheet.columnLetterToIndex`: `Σ (charCodeAt(i) - 64) * 26^(len-1-i)`,
written structurally (the exponent of the head position is the length of the
tail). -/
def columnLetterToIndex : List Nat → Nat
  | [] => 0
  | c :: rest => (c - 64) * 26 ^ rest.length + columnLetterToIndex rest

/-- Models `Sheet.columnToLetter`: repeatedly strip the low bijective-base-26 digit
`temp = (column-1) % 26` and continue with `(column - temp - 1) / 26`. -/
def columnToLetter (column : Nat) : List Nat :=
  if column > 0 then
    let temp := (column - 1) % 26
    columnToLetter ((column - temp - 1) / 26) ++ [temp + 65]
  else []
termination_by column
decreasing_by omega

/-- Models `columnLetterToIndex` on a `String` argument (via its character codes). -/
def columnLetterToIndexS (s : String) : Nat :=
  columnLetterToIndex (s.data.map Char.toNat)

/-- Models `columnToLetter` as a `String` (via `String.fromCharCode`). -/
def columnToLetterStr (column : Nat) : String :=
  ⟨(columnToLetter column).map Char.ofNat⟩

theorem columnToLetter_zero : columnToLetter 0 = [] := by
  simp [columnToLetter]

theorem columnToLetter_step (q d : Nat) (h1 : 1 ≤ d) (h2 : d ≤ 26) :
    columnToLetter (26 * q + d) = columnToLetter q ++ [d + 64] := by
  rw [columnToLetter]
  have e0 : 26 * q + d > 0 := by omega
  have e1 : (26 * q + d - 1) % 26 = d - 1 := by omega
  have e2 : (26 * q + d - (26 * q + d - 1) % 26 - 1) / 26 = q := by omega
  have e3 : (26 * q + d - 1) % 26 + 65 = d + 64 := by omega
  simp only [if_pos e0, e2, e3]

theorem columnLetterToIndex_append (s : List Nat) (c : Nat) :
    columnLetterToIndex (s ++ [c]) = 26 * columnLetterToIndex s + (c - 64) := by
  induction s with
  | nil => simp [columnLetterToIndex]
  | cons x s ih =>
      have hlen : (s ++ [c]).length = s.length + 1 := by simp
      calc columnLetterToIndex (x :: s ++ [c])
          = (x - 64) * 26 ^ (s ++ [c]).length + columnLetterToIndex (s ++ [c]) := rfl
        _ = (x - 64) * (26 ^ s.length * 26) + (26 * columnLetterToIndex s + (c - 64)) := by
              rw [hlen, ih, pow_succ]
        _ = 26 * ((x - 64) * 26 ^ s.length + columnLetterToIndex s) + (c - 64) := by ring
        _ = 26 * columnLetterToIndex (x :: s) + (c - 64) := rfl

theorem columnToLetter_columnLetterToIndex (s : List Nat)
    (hv : ∀ c ∈ s, 65 ≤ c ∧ c ≤ 90) :
    columnToLetter (columnLetterToIndex s) = s := by
  induction s using List.reverseRecOn with
  | nil => simpa [columnLetterToIndex] using columnToLetter_zero
  | append_singleton s c ih =>
      have hc := hv c (by simp)
      have hs : ∀ x ∈ s, 65 ≤ x ∧ x ≤ 90 := fun x hx => hv x (by simp [hx])
      rw [columnLetterToIndex_append,
        columnToLetter_step _ (c - 64) (by omega) (by omega), ih hs]
      have hcc : c - 64 + 64 = c := by omega
      rw [hcc]

theorem columnToLetter_one : columnToLetter 1 = [65] := by
  have h := columnToLetter_step 0 1 (by norm_num) (by norm_num)
  simpa [columnToLetter_zero] using h

theorem columnToLetter_26 : columnToLetter 26 = [90] := by
  have h := columnToLetter_step 0 26 (by norm_num) (by norm_num)
  simpa [columnToLetter_zero] using h

theorem columnToLetter_27 : columnToLetter 27 = [65, 65] := by
  have h := columnToLetter_step 1 1 (by norm_num) (by norm_num)
  simpa [columnToLetter_one] using h

theorem columnToLetter_52 : columnToLetter 52 = [65, 90] := by
  have h := columnToLetter_step 1 26 (by norm_num) (by norm_num)
  simpa [columnToLetter_one] using h

theorem columnToLetter_703 : columnToLetter 703 = [65, 65, 65] := by
  have h := columnToLetter_step 27 1 (by norm_num) (by norm_num)
  simpa [columnToLetter_27] using h

/-! ## Grid Adapter (src/lib/spreadsheet.js)

Each operation is a pure function from the adapter state (the cached grid
snapshot `this.data`) and the relevant transport responses to the new state,
the list of transport calls it issues, and its result.  Transport failures of
write calls abort the operation before any further effect and are not
modelled (no claim concerns them); the tolerated failure of the snapshot
fetch inside `load` is modelled by the `resp : Option SpreadData` argument
(`none` = the `spreadsheets.get` call failed or returned no sheets). -/

/-- One sheet of the cached snapshot, as built by `load` (the
`properties`/`data[0].rowData` projection). -/
structure SheetInfo where
  id : Nat
  title : String
  index : Nat
  rowCount : Nat
  columnCount : Nat
  values : List (List Cell)
deriving DecidableEq

/-- The cached spreadsheet snapshot (`this.data`); resource-level metadata
not used by any operation is omitted. -/
structure SpreadData where
  sheets : List SheetInfo
deriving DecidableEq

/-- Adapter state: the cache is either fully absent or fully populated. -/
structure St where
  data : Option SpreadData
deriving DecidableEq

/-- Error taxonomy of the spec (§7); `rangeError` is the JS `RangeError`
thrown by `new Array(n)` for negative `n`. -/
inductive JErr where
  | notFound
  | invalidArgument
  | rangeError
deriving DecidableEq

/-- A sheet selector as passed to `getSheet`: a number (`gid`), a string
(title or numeric string), or omitted (`undefined`). -/
inductive JsSel where
  | omitted
  | num (n : Int)
  | str (s : String)
deriving DecidableEq

/-- Models `String(id || 0)`: falsy selectors (`undefined`, `0`, `''`) become `0`. -/
def selIdStr : JsSel → String
  | .omitted => "0"
  | .num n => if n = 0 then "0" else toString n
  | .str s => if s = "" then "0" else s

/-- Models `s.title === id` (strict equality: only a string selector can equal the
title). -/
def selTitleEq (title : String) : JsSel → Bool
  | .str s => title = s
  | _ => false

/-- Models `load()`: serve the cache when populated; otherwise adopt the fetched
snapshot, or degrade to "no data" when the fetch failed (the JS code logs
and returns the still-`null` cache). -/
def loadSt (st : St) (resp : Option SpreadData) : St × Option SpreadData :=
  match st.data with
  | some d => (st, some d)
  | none =>
    match resp with
    | some d => (⟨some d⟩, some d)
    | none => (st, none)

/-- The sheet lookup inside `getSheet`:
`sheets.find(s => String(s.id) === String(id || 0) || s.title === id)`. -/
def getSheetD (d : SpreadData) (sel : JsSel) : Option SheetInfo :=
  d.sheets.find? (fun s => toString s.id = selIdStr sel ∨ selTitleEq s.title sel)

/-- Models `getSheet(id)`: load, fail `NotFound` when no snapshot could be loaded,
otherwise return the (possibly absent) matching sheet. -/
def getSheetSt (st : St) (resp : Option SpreadData) (sel : JsSel) :
    St × Except JErr (Option SheetInfo) :=
  let (st', sd) := loadSt st resp
  match sd with
  | none => (st', .error .notFound)
  | some d => (st', .ok (getSheetD d sel))

/-- A structural model of a range string
`'<title>'!<startCol><startRow>:<endCol><endRow>`; `none` row bounds model
the row-less form `'<title>'!A:ZZ`. -/
structure RangeRef where
  sheet : String
  startCol : String
  startRow : Option Nat
  endCol : String
  endRow : Option Nat
deriving DecidableEq

/-- One entry of a `values.batchUpdate` request body. -/
structure RangeValues where
  range : RangeRef
  values : List (List Cell)
deriving DecidableEq

/-- One request object of a `spreadsheets.batchUpdate` body. -/
inductive BatchReq where
  | appendDim (sheetId : Nat) (dimension : String) (length : Int)
  | deleteDim (sheetId : Nat) (dimension : String) (startIndex endIndex : Int)
  | addSheetReq (title : String)
  | deleteSheetReq (sheetId : Nat)
deriving DecidableEq

/-- A transport call issued by the adapter (`this.api.call(method, params)`),
keeping the parameters the algorithms depend on. -/
inductive ApiCall where
  | spreadsheetsGet
  | valuesGet (range : RangeRef)
  | valuesAppend (range : RangeRef) (values : List (List Cell))
  | valuesBatchUpdate (data : List RangeValues)
  | batchUpdate (requests : List BatchReq)
deriving DecidableEq

/-- A row payload handed to `dataToValue`: a dense value array, or a sparse
column→value mapping keyed by column letter or 1-based numeric string. -/
inductive RowData where
  | arr (cells : List Cell)
  | sparse (kvs : List (String × String))
deriving DecidableEq

/-- JS sparse-array element write `line[i] = v`, extending with holes. -/
def setSparse (l : List Cell) (i : Nat) (v : String) : List Cell :=
  if i < l.length then l.set i (some v)
  else l ++ List.replicate (i - l.length) none ++ [some v]

/-- The column reference resolution of `dataToValue`: an all-uppercase key is
a column letter, an all-digit key a 1-based index; anything else is skipped.
(A resulting index below 1 would address a non-element JS property, leaving
the array untouched, so it is skipped as well.) -/
def keyIndex (k : String) : Option Nat :=
  if !k.data.isEmpty ∧ k.data.all (fun c => 65 ≤ c.toNat ∧ c.toNat ≤ 90) then
    some (columnLetterToIndexS k - 1)
  else if digitsOnly k.data then
    let n := digitsFold k.data
    if n = 0 then none else some (n - 1)
  else none

/-- Models `dataToValue`: arrays pass through, sparse mappings are placed into a
dense (hole-carrying) positional row. -/
def dataToValue : RowData → List Cell
  | .arr cells => cells
  | .sparse kvs =>
      kvs.foldl (fun line kv =>
        match keyIndex kv.1 with
        | some i => setSparse line i kv.2
        | none => line) []

/-- JS `Array.prototype.join(',')` over a cell row (holes and `null` join as
empty strings). -/
def joinCells (l : List Cell) : String :=
  String.intercalate "," (l.map cellStr)

/-- The implicit JS coercion of an array compared to a number: `ToPrimitive`
joins the array with commas, then `Number(...)` parses it (`none` = `NaN`,
on which every comparison is false). -/
def jsArrayToNum (l : List Cell) : Option Int :=
  jsNumber (joinCells l)

/-- The `batchUpdate` requests assembled by `expand` (empty when both
dimensions are falsy). -/
def expandReqs (sheetId : Nat) (rows columns : Int) : List BatchReq :=
  (if rows ≠ 0 then [.appendDim sheetId "ROWS" rows] else []) ++
  (if columns ≠ 0 then [.appendDim sheetId "COLUMNS" columns] else [])

/-- Models `expand({rows, columns, sheetId})`: one batched append-dimension request,
or no request at all when both amounts are falsy.  The cache is not
touched. -/
def expandSt (st : St) (sheetId : Nat) (rows columns : Int) : St × List ApiCall :=
  let reqs := expandReqs sheetId rows columns
  (st, if reqs.isEmpty then [] else [.batchUpdate reqs])

/-- The two accepted shapes of `update`'s `data` argument: a row-number→row
mapping (`objU` carries the `parseInt`-ed decimal `Object.keys`), or an
explicit `{row, data}` sequence. -/
inductive UpdateData where
  | objU (rows : List (Nat × RowData))
  | arrU (rows : List (Nat × RowData))
deriving DecidableEq

/-- Both shapes normalise to the same `{row, data}` list. -/
def updateRowsOf : UpdateData → List (Nat × RowData)
  | .objU l => l
  | .arrU l => l

structure UpdateResult where
  updatedRows : Nat
deriving DecidableEq

/-- The single pass of `update` over its target rows: it accumulates
`addRows` (maximum row overrun) and `addColumns`, and builds the batched
per-row range writes.  `addColumns` reproduces the source comparison
`value > selectedSheet.columnCount` where `value` is the dense row *array*:
the array is coerced via join-then-`Number`, so it is `NaN` (never greater)
for every multi-cell row. -/
def updateScan (sheet : SheetInfo) (rows : List (Nat × RowData)) :
    Nat × Int × List RangeValues :=
  rows.foldl (fun acc item =>
    let addRows :=
      if item.1 > sheet.rowCount ∧ item.1 - sheet.rowCount > acc.1 then
        item.1 - sheet.rowCount
      else acc.1
    let value := dataToValue item.2
    let addColumns :=
      match jsArrayToNum value with
      | some v =>
          if v > (sheet.columnCount : Int) ∧ v - sheet.columnCount > acc.2.1 then
            v - sheet.columnCount
          else acc.2.1
      | none => acc.2.1
    (addRows, addColumns,
      acc.2.2 ++ [⟨⟨sheet.title, "A", some item.1, "ZZ", some item.1⟩, [value]⟩]))
    (0, 0, [])

/-- Models `update({data, sheet, upsert})`: absent data returns `{updatedRows: 0}`
without any call or cache change; otherwise resolve the sheet, scan the
target rows, optionally expand, then issue the one batched value write and
invalidate the cache. -/
def updateSt (st : St) (resp : Option SpreadData) (upd : Option UpdateData)
    (sel : JsSel) (upsert : Bool) : St × List ApiCall × Except JErr UpdateResult :=
  match upd with
  | none => (st, [], .ok ⟨0⟩)
  | some u =>
    match getSheetSt st resp sel with
    | (st', .error e) => (st', [], .error e)
    | (st', .ok none) => (st', [], .error .notFound)
    | (st', .ok (some sheet)) =>
      let r := updateScan sheet (updateRowsOf u)
      let exCalls := if upsert then (expandSt st' sheet.id r.1 r.2.1).2 else []
      (⟨none⟩, exCalls ++ [.valuesBatchUpdate r.2.2], .ok ⟨r.2.2.length⟩)

/-- The structured content of the service's reported
`result.updates.updatedRange` (the five groups of the regex
`'(title)'!(col)(row):(col)(row)`) together with `updatedRows`. -/
structure AppendResp where
  sheetName : String
  startColL : String
  startRow : Nat
  endColL : String
  endRow : Nat
  updatedRows : Nat
deriving DecidableEq

structure AppendResult where
  sheet : String
  startRow : Nat
  endRow : Nat
  insertedRows : Nat
deriving DecidableEq

/-- Models `append`'s `data` argument: a single row, or a sequence of rows. -/
inductive AppendData where
  | single (r : RowData)
  | multi (rs : List RowData)

/-- The wrapping `typeof data[0] !== 'object' ? [data] : data`: a single row
is wrapped; an empty sequence has `data[0] === undefined` and is wrapped
into one empty row as well. -/
def appendItems : AppendData → List RowData
  | .single r => [r]
  | .multi [] => [.arr []]
  | .multi (r :: rs) => r :: rs

/-- Models `append({data, sheet})` given the service response `ares`: issue the
`values.append` call, and when the service anchored the insertion at a
column other than A, issue the one corrective batched range write,
re-anchored at column A over the inserted row span, padding each row to the
reported end column.  A row longer than the reported end column would make
`new Array(columnNo - value.length)` throw `RangeError` before the
corrective call and before the cache invalidation. -/
def appendSt (st : St) (resp : Option SpreadData) (d : AppendData) (sel : JsSel)
    (ares : AppendResp) : St × List ApiCall × Except JErr AppendResult :=
  match getSheetSt st resp sel with
  | (st', .error e) => (st', [], .error e)
  | (st', .ok none) => (st', [], .error .notFound)
  | (st', .ok (some sheet)) =>
    let values := (appendItems d).map dataToValue
    let call1 := ApiCall.valuesAppend ⟨sheet.title, "A", none, "ZZ", none⟩ values
    let columnNo := columnLetterToIndexS ares.endColL
    let ret : AppendResult := ⟨ares.sheetName, ares.startRow, ares.endRow, ares.updatedRows⟩
    if ares.startColL = "A" then
      (⟨none⟩, [call1], .ok ret)
    else if values.all (fun v => v.length ≤ columnNo) then
      (⟨none⟩,
        [call1, .valuesBatchUpdate
          [⟨⟨sheet.title, "A", some ares.startRow, "ZZ", some ares.endRow⟩,
            values.map (fun v => v ++ List.replicate (columnNo - v.length) (some ""))⟩]],
        .ok ret)
    else
      (st', [call1], .error .rangeError)

structure DeleteResult where
  ok : Nat
  deletedRowsCount : Nat
  deletedColumnsCount : Nat
deriving DecidableEq

/-- Models `delete({rows, columns, sheet})`: row deletions are sorted highest index
first, each row/column becomes one `deleteDimension` request (0-based
half-open index range `[r-1, r)`), all in a single batched call (none when
there is nothing to delete); the cache is invalidated unconditionally.
The source initialises `deleteColumnsCount` but accumulates into
`result.deletedColumnsCount`, so that field is `NaN` after any column
delete; the model returns the intended count (no verified claim reads
it). -/
def deleteSt (st : St) (resp : Option SpreadData) (rows : Option (List Int))
    (columns : Option (List Int)) (sel : JsSel) :
    St × List ApiCall × Except JErr DeleteResult :=
  match getSheetSt st resp sel with
  | (st', .error e) => (st', [], .error e)
  | (st', .ok none) => (st', [], .error .notFound)
  | (_, .ok (some sheet)) =>
    let rowList := match rows with
      | some rs => if rs.isEmpty then [] else sortJS (fun a b => b - a) rs
      | none => []
    let rowReqs := rowList.map (fun r => BatchReq.deleteDim sheet.id "ROWS" (r - 1) r)
    let colList := match columns with
      | some cs => if cs.isEmpty then [] else cs
      | none => []
    let colReqs := colList.map (fun c => BatchReq.deleteDim sheet.id "COLUMNS" (c - 1) c)
    let reqs := rowReqs ++ colReqs
    (⟨none⟩, if reqs.isEmpty then [] else [.batchUpdate reqs],
      .ok ⟨1, rowReqs.length, colReqs.length⟩)

/-- The `replies[0].addSheet.properties` of a successful `addSheet` call. -/
structure SheetProps where
  id : Nat
  title : String
  index : Nat
  rowCount : Nat
  columnCount : Nat
deriving DecidableEq

/-- Models `addSheet({title})`: one batched `addSheet` request, cache invalidated,
result projected from the reply properties. -/
def addSheetSt (st : St) (title : String) (props : SheetProps) :
    St × List ApiCall × Except JErr SheetProps :=
  let _ := st
  (⟨none⟩, [.batchUpdate [.addSheetReq title]], .ok props)

/-- Models `deleteSheet({sheet})`: resolve the selector (failing `NotFound` when it
does not resolve), issue one batched `deleteSheet` request, invalidate. -/
def deleteSheetSt (st : St) (resp : Option SpreadData) (sel : JsSel) :
    St × List ApiCall × Except JErr Unit :=
  match getSheetSt st resp sel with
  | (st', .error e) => (st', [], .error e)
  | (st', .ok none) => (st', [], .error .notFound)
  | (_, .ok (some sheet)) =>
    (⟨none⟩, [.batchUpdate [.deleteSheetReq sheet.id]], .ok ())

/-- The cached-snapshot branch of `list`: rows `[start, start+limit-1]` of
the selected sheet's grid (`values.slice(start - 1, end)`; the inner map
`grid && grid.text` is the identity under the `Cell` model). -/
def listPure (values : List (List Cell)) (start : Nat) (limit : Nat) :
    List (List Cell) :=
  jsSlice values ((start : Int) - 1) ((start : Int) + (limit : Int) - 1)

/-- Models `list({sheet, start, limit, fresh})` including its sheet
resolution: resolve the selector (failing `NotFound` on an absent result
before any further transport call), then either issue the one direct range
read `'<title>'!A<start>:ZZ<end>` (whose response `freshResp` models
`result && result.values`) or serve the slice of the cached grid. -/
def listSt (st : St) (resp : Option SpreadData) (sel : JsSel)
    (start limit : Nat) (fresh : Bool)
    (freshResp : Option (List (List Cell))) :
    St × List ApiCall × Except JErr (Option (List (List Cell))) :=
  match getSheetSt st resp sel with
  | (st', .error e) => (st', [], .error e)
  | (st', .ok none) => (st', [], .error .notFound)
  | (st', .ok (some sheet)) =>
    if fresh then
      (st', [.valuesGet ⟨sheet.title, "A", some start, "ZZ", some (start + limit - 1)⟩],
        .ok freshResp)
    else
      (st', [], .ok (some (listPure sheet.values start limit)))

/-! ## Document Engine (src/lib/sheet.js)

The engine operations are modelled over the contents of the selected sheet
(its cell grid), i.e. over the cached read path of `spreadsheet.list`; a
document is the JS object built by `valuesToData`, an association list in
insertion order. -/

/-- A document: `{_row: n, <header name>: <cell string>, ...}`. -/
abbrev Doc := List (String × JsVal)

/-- The options object threaded through `find`/`valuesToData`/`filterData`.
`limit`/`start` distinguish absent from `0` because `list` and `filterData`
destructure them with different defaults; `startRow = 0` models a falsy or
absent `startRow`; `sort = []` models an absent/empty sort mapping. -/
structure FindOpts where
  skip : Nat := 0
  limit : Option Nat := none
  start : Option Nat := none
  sort : List (String × Int) := []
  header : Bool := false
  column : Bool := false
  lowercase : Bool := false
  startRow : Nat := 0

/-- The argument of one `$`-operator inside a query term object. -/
inductive QOpArg where
  | i (n : Int)
  | s (v : String)
  | b (v : Bool)

/-- A query field term as supplied by the caller: a string (exact or
wildcard), a number or other primitive (the `else` branch stringifies it), a
predicate function, a user `RegExp` (modelled by its `test` function), or an
operator object. -/
inductive QVal where
  | qstr (s : String)
  | qnum (n : Int)
  | qfun (f : Option JsVal → Bool)
  | qregex (test : String → Bool)
  | qobj (ops : List (String × QOpArg))

/-- A query object: field name → term specification. -/
abbrev QueryObj := List (String × QVal)

/-- The `value` slot of one compiled filter term. -/
inductive TermVal where
  | tstr (s : String)
  | tpat (test : String → Bool)
  | targ (a : QOpArg)
  | tfun (f : Option JsVal → Bool)

/-- One compiled filter term `{key, type, value}`. -/
structure FilterTerm where
  key : String
  type : String
  value : TermVal

/-- Strip the input through the first occurrence of `c`, scanning left to
right (`none` when `c` never occurs). -/
def findSub (c : List Char) : List Char → Option (List Char)
  | [] => if c.isEmpty then some [] else none
  | x :: t =>
      if c.isPrefixOf (x :: t) then some ((x :: t).drop c.length)
      else findSub c t

/-- Whether the anchored wildcard regex
`^ c₁ (.*?) c₂ (.*?) … cₖ $` (the chunks are the `*`-split parts of the
query string) matches `s`. -/
def wildTest (chunks : List (List Char)) (s : List Char) : Bool :=
  match chunks with
  | [] => s.isEmpty
  | [c] => s = c
  | c :: rest => c.isPrefixOf s ∧ wildMid rest (s.drop c.length)
where
  /-- Match the remaining chunks in order, the last anchored at the end. -/
  wildMid : List (List Char) → List Char → Bool
  | [], s => s.isEmpty
  | [c], s => c.isSuffixOf s
  | c :: rest, s =>
      match findSub c s with
      | some r => wildMid rest r
      | none => false

/-- The operator keys recognised by the `switch` inside `buildFilter`. -/
def recognizedOps : List String :=
  ["$contains", "$gt", "$lt", "$lte", "$gte", "$empty"]

/-- The `type` string a recognised operator key compiles to. -/
def opTermType (op : String) : Option String :=
  if op = "$contains" then some "contains"
  else if op = "$gt" then some "gt"
  else if op = "$lt" then some "lt"
  else if op = "$lte" then some "lte"
  else if op = "$gte" then some "gte"
  else if op = "$empty" then some "empty"
  else none

/-- The filter terms one query entry contributes (`buildFilter`'s per-key
branches). -/
def termsFor (key : String) : QVal → List FilterTerm
  | .qstr s =>
      if s.data.contains '*' then
        [⟨key, "pattern", .tpat (fun v => wildTest (s.data.splitOn '*') v.data)⟩]
      else [⟨key, "string", .tstr s⟩]
  | .qfun f => [⟨key, "function", .tfun f⟩]
  | .qregex t => [⟨key, "pattern", .tpat t⟩]
  | .qobj ops =>
      ops.foldl (fun terms p =>
        terms ++ (match opTermType p.1 with
          | some ty => [⟨key, ty, .targ p.2⟩]
          | none => [])) []
  | .qnum n => [⟨key, "string", .tstr (toString n)⟩]

/-- Models `buildFilter(query)`: no terms for a null query, else the concatenated
per-key terms. -/
def buildFilter : Option QueryObj → List FilterTerm
  | none => []
  | some q => q.foldl (fun terms kv => terms ++ termsFor kv.1 kv.2) []

/-- Models `Number(x)` coercion of an operator argument (booleans coerce to 0/1). -/
def opArgNum : QOpArg → Option Int
  | .i n => some n
  | .s v => jsNumber v
  | .b v => some (if v then 1 else 0)

/-- JS string coercion of an operator argument. -/
def opArgStr : QOpArg → String
  | .i n => toString n
  | .s v => v
  | .b v => if v then "true" else "false"

/-- JS truthiness of an operator argument. -/
def opArgTruthy : QOpArg → Bool
  | .i n => n ≠ 0
  | .s v => v ≠ ""
  | .b v => v

/-- Substring containment (`String.prototype.includes`). -/
def containsSub (needle hay : List Char) : Bool :=
  (findSub needle hay).isSome

/-- Whether one compiled term rejects a document (`filter.some(f => …)`): the
body of the `switch` in `buildFilterFn`.  An absent (`undefined`) field
value makes `itemValue.includes` throw in JS; no modelled execution reaches
that case, it is modelled as not rejecting. -/
def termRejects (f : FilterTerm) (item : Doc) : Bool :=
  let itemValue := jsLookup item f.key
  if f.type = "string" then
    match f.value with
    | .tstr s => jsStr itemValue ≠ s
    | _ => false
  else if f.type = "pattern" then
    match f.value with
    | .tpat t => !t (jsStr itemValue)
    | _ => false
  else if f.type = "contains" then
    match f.value, itemValue with
    | .targ a, some (.s v) => !containsSub (opArgStr a).data v.data
    | _, _ => false
  else if f.type = "gt" then
    match f.value, parseIntJS (jsStr itemValue), (match f.value with | .targ a => opArgNum a | _ => none) with
    | .targ _, some iv, some av => iv ≤ av
    | _, _, _ => false
  else if f.type = "lt" then
    match f.value, parseIntJS (jsStr itemValue), (match f.value with | .targ a => opArgNum a | _ => none) with
    | .targ _, some iv, some av => iv ≥ av
    | _, _, _ => false
  else if f.type = "gte" then
    match f.value, parseIntJS (jsStr itemValue), (match f.value with | .targ a => opArgNum a | _ => none) with
    | .targ _, some iv, some av => iv < av
    | _, _, _ => false
  else if f.type = "lte" then
    match f.value, parseIntJS (jsStr itemValue), (match f.value with | .targ a => opArgNum a | _ => none) with
    | .targ _, some iv, some av => iv > av
    | _, _, _ => false
  else if f.type = "empty" then
    match f.value with
    | .targ a => if opArgTruthy a then jsTruthy itemValue else !jsTruthy itemValue
    | _ => false
  else if f.type = "function" then
    match f.value with
    | .tfun p => !p itemValue
    | _ => false
  else false

/-- Models `buildFilterFn(query)`: a document passes when no compiled term rejects
it. -/
def buildFilterFn (query : Option QueryObj) (item : Doc) : Bool :=
  !(buildFilter query).any (fun f => termRejects f item)

/-- Code-point string comparison as integer sign; models `localeCompare` up
to locale collation (no claim depends on the collation order). -/
def strCmpInt (a b : String) : Int :=
  if a < b then -1 else if b < a then 1 else 0

/-- The numeric value used in the numeric branch of the sort comparator
(there the operand is a number or an all-digit string, so `parseInt`
succeeds). -/
def numOf : Option JsVal → Int
  | some (.n k) => k
  | some (.s s) => (parseIntJS s).getD 0
  | none => 0

/-- The multi-key comparator built by `buildSortFn`: numeric comparison when
both values are all-digit strings or both native numbers, string comparison
otherwise; a negative sort weight flips the sign of a non-zero comparison;
keys are evaluated in order, short-circuiting on the first non-zero
comparison. -/
def sortCmpKeys : List (String × Int) → Doc → Doc → Int
  | [], _, _ => 0
  | (key, w) :: rest, a, b =>
    let av := jsLookup a key
    let bv := jsLookup b key
    let isNum := (digitsOnly (jsStr av).data && digitsOnly (jsStr bv).data) ||
      (match av, bv with | some (.n _), some (.n _) => true | _, _ => false)
    let n : Int := if isNum then numOf av - numOf bv else strCmpInt (jsStr av) (jsStr bv)
    let n := if w < 0 ∧ n ≠ 0 then (if n > 0 then -1 else 1) else n
    if n ≠ 0 then n else sortCmpKeys rest a b

/-- Models `buildSortFn(sort)`: no comparator for an absent/empty sort mapping. -/
def buildSortFn (sort : List (String × Int)) : Option (Doc → Doc → Int) :=
  if sort.isEmpty then none else some (sortCmpKeys sort)

/-- One header cell after the lowercase option
(`lowercase && v ? v.toLowerCase() : v`). -/
def hdrCell (lowercase : Bool) : Cell → Cell
  | some s => if lowercase ∧ s ≠ "" then some s.toLower else some s
  | none => none

/-- The truthy header name at column position `j` (`const h = header[j];
if (h) …`). -/
def headerName (header : List Cell) (j : Nat) : Option String :=
  match header[j]? with
  | some (some h) => if h = "" then none else some h
  | _ => none

/-- Models `value.join('') === ''`: every cell joins as the empty string. -/
def rowIsBlank (value : List Cell) : Bool :=
  value.all (fun c => cellStr c = "")

/-- The document built from one data row: `{_row: rowNum}` first, then for
each cell in order its named-header field (cells under an unnamed header
position are skipped) and, under the `column` option, its column-letter
field, each defaulting to the empty string for empty/`null` cells. -/
def rowToDoc (header : List Cell) (opts : FindOpts) (rowNum : Nat)
    (value : List Cell) : Doc :=
  value.enum.foldl (fun json jv =>
    let json := match headerName header jv.1 with
      | some h => jsSet json h (.s (cellStr jv.2))
      | none => json
    if opts.column then jsSet json (columnToLetterStr (jv.1 + 1)) (.s (cellStr jv.2))
    else json)
    [("_row", .n rowNum)]

/-- The result of `valuesToData`/`find`: the document sequence plus the
`_header` attribute attached to it when header inclusion was requested. -/
structure DocsResult where
  docs : List Doc
  header : Option (List Cell)

/-- Models `valuesToData(values, options)`: row 1 is the header and is never
emitted; an all-blank row is skipped; row numbers come from the position, or
from `startRow` when the slice begins mid-range. -/
def valuesToData (values : List (List Cell)) (opts : FindOpts) : DocsResult :=
  if values.isEmpty then ⟨[], none⟩
  else
    let header := (values.headD []).map (hdrCell opts.lowercase)
    let docs := values.enum.filterMap (fun iv =>
      if iv.1 = 0 ∨ rowIsBlank iv.2 then none
      else some (rowToDoc header opts
        (if opts.startRow ≠ 0 then opts.startRow + iv.1 - 1 else iv.1 + 1) iv.2))
    ⟨docs, if opts.header then some header else none⟩

/-- Models `filterData(data, query, options)`: filter → sort → paginate, the
`_header` attribute surviving onto the result. -/
def filterData (d : DocsResult) (query : Option QueryObj) (opts : FindOpts) :
    DocsResult :=
  if d.docs.isEmpty then d
  else
    let q : Option QueryObj := some ((query).getD [])
    let res := d.docs.filter (buildFilterFn q)
    let res := match buildSortFn opts.sort with
      | some cmp => sortJS cmp res
      | none => res
    let res := if opts.skip > 0 ∨ opts.limit.getD 0 > 0 then
        jsSlice res (opts.skip : Int) ((opts.skip : Int) + (opts.limit.getD 0 : Int))
      else res
    ⟨res, d.header⟩

/-- Models `Sheet.find(query, options)` over the selected sheet's cell grid: read
the row window through `list` (which also consumes `start`/`limit`), project
to documents, then filter/sort/paginate. -/
def sheetFind (values : List (List Cell)) (query : Option QueryObj)
    (opts : FindOpts) : DocsResult :=
  filterData
    (valuesToData (listPure values (opts.start.getD 1) (opts.limit.getD 2000000)) opts)
    query opts

/-- Models `Sheet.findOne(query, options)`:
`(await this.find(query, {...options, limit: 1})).pop()`. -/
def sheetFindOne (values : List (List Cell)) (query : Option QueryObj)
    (opts : FindOpts) : Option Doc :=
  (sheetFind values query { opts with limit := some 1 }).docs.getLast?

/-- The argument of the single Adapter `delete` call issued by
`Sheet.delete`. -/
structure SheetDeleteCall where
  rows : List (Option JsVal)
deriving DecidableEq

/-- Models `Sheet.delete(query)`: a falsy (`null`/absent) query throws
`InvalidArgument` before any call; otherwise the matching documents' `_row`
values are passed to one Adapter `delete` call (the `.ok` payload). -/
def sheetDelete (values : List (List Cell)) (query : Option QueryObj) :
    Except JErr SheetDeleteCall :=
  match query with
  | none => .error .invalidArgument
  | some q =>
      .ok ⟨(sheetFind values (some q) {}).docs.map (fun d => jsLookup d "_row")⟩

/-! ### Update operators (`Sheet.update`'s per-field patch compilation) -/

/-- The argument of one `$`-operator inside a patch value object. -/
inductive UOpArg where
  | i (n : Int)
  | s (v : String)
  | m (kvs : List (String × String))

/-- A patch value: literal string, literal number, or operator object. -/
inductive UVal where
  | ustr (s : String)
  | unum (n : Int)
  | uops (ops : List (String × UOpArg))

/-- Models `parseInt` of an operator argument (`NaN` for an object argument). -/
def uArgParseInt : UOpArg → Option Int
  | .i n => some n
  | .s v => parseIntJS v
  | .m _ => none

/-- JS string coercion of an operator argument. -/
def uArgStr : UOpArg → String
  | .i n => toString n
  | .s v => v
  | .m _ => "[object Object]"

/-- JS string coercion of a present document field value. -/
def jsValStr : JsVal → String
  | .s s => s
  | .n k => toString k

/-- The global alternation replace of `$replace` for literal keys: scan left
to right, at each position replace the first listed key that matches there
(regex metacharacters inside keys are outside the model). -/
def multiReplace (kvs : List (String × String)) : List Char → List Char
  | [] => []
  | c :: rest =>
    match kvs.find? (fun kv => kv.1.data.isPrefixOf (c :: rest)) with
    | some kv => kv.2.data ++ multiReplace kvs (rest.drop (kv.1.length - 1))
    | none => c :: multiReplace kvs rest
termination_by l => l.length
decreasing_by
  · simp only [List.length_drop, List.length_cons]; omega
  · simp only [List.length_cons]; omega

/-- Models `orgValue = item[key] || ''`. -/
def jsOrEmpty : Option JsVal → JsVal
  | some (.s s) => .s s
  | some (.n k) => if k = 0 then .s "" else .n k
  | none => .s ""

/-- The value assigned to `line[index]` for one patch value and the field's
current value: a literal replaces; an operator object is folded over its
keys, the last recognised operator winning; `$inc` adds the parsed operand
to the current value, which counts as its numeric value only when it is a
native number or an all-digit string, and `0` otherwise
(`$lowercase`/`$uppercase` on a native-number current value would throw in
JS and are modelled on its string form; no claim exercises them). -/
def updateLineValue (value : UVal) (orgValue : JsVal) : Option String :=
  match value with
  | .ustr s => some s
  | .unum n => some (toString n)
  | .uops ops =>
      ops.foldl (fun line p =>
        if p.1 = "$inc" then
          some (match uArgParseInt p.2 with
            | some pv => toString (pv + (match orgValue with
                | .n ov => ov
                | .s s => if digitsOnly s.data then (parseIntJS s).getD 0 else 0))
            | none => "NaN")
        else if p.1 = "$append" then some (jsValStr orgValue ++ uArgStr p.2)
        else if p.1 = "$prepend" then some (uArgStr p.2 ++ jsValStr orgValue)
        else if p.1 = "$lowercase" then some (jsValStr orgValue).toLower
        else if p.1 = "$uppercase" then some (jsValStr orgValue).toUpper
        else if p.1 = "$replace" then
          some ⟨multiReplace (match p.2 with | .m kvs => kvs | _ => [])
            (jsValStr orgValue).data⟩
        else line) none

/-! ## Helper lemmas -/

theorem jsSlice_of_le (l : List α) (e : Int) (he : (l.length : Int) ≤ e) :
    jsSlice l 0 e = l := by
  have hn : (0 : Int) ≤ (l.length : Int) := Int.ofNat_nonneg _
  simp only [jsSlice]
  rw [if_neg (by omega), if_neg (by omega), min_eq_left hn, min_eq_right he]
  simp

theorem filterData_default (d : DocsResult) (q : QueryObj) :
    filterData d (some q) {} = ⟨d.docs.filter (buildFilterFn (some q)), d.header⟩ := by
  unfold filterData
  by_cases hd : d.docs.isEmpty
  · rw [if_pos hd]
    have h0 : d.docs = [] := List.isEmpty_iff.mp hd
    cases d
    simp_all
  · rw [if_neg hd]
    simp [buildSortFn]

theorem sheetFind_default (values : List (List Cell)) (q : Option QueryObj)
    (hl : values.length ≤ 2000000) :
    sheetFind values q {} = filterData (valuesToData values {}) q {} := by
  unfold sheetFind listPure
  norm_num
  rw [jsSlice_of_le values 2000000 (by exact_mod_cast hl)]

theorem sheetFind_default_docs (values : List (List Cell)) (q : QueryObj)
    (hl : values.length ≤ 2000000) :
    (sheetFind values (some q) {}).docs =
      (valuesToData values {}).docs.filter (buildFilterFn (some q)) := by
  rw [sheetFind_default values (some q) hl, filterData_default]

/-! ## Claims -/

/-- C1, counterexample: the claim says a query with no fields fails with
`InvalidArgument` before any transport call; but `Sheet.delete` only checks
JS truthiness (`!query`), and an empty object is truthy, so on a sheet with
two data rows the empty query is accepted and one Adapter delete call
targeting every data row (`_row` 2 and 3) is issued. -/
theorem c1_delete_counterexample :
    sheetDelete [[some "name"], [some "a"], [some "b"]] (some []) =
      .ok ⟨[some (.n 2), some (.n 3)]⟩ := by
  rfl

/-- C1, amended: `Sheet.delete` fails with `InvalidArgument` (before any
Adapter call) exactly for a null/absent query; any object query — including
one with no fields — is accepted and issues exactly one Adapter delete call
whose rows are the `_row` values of the documents matching the compiled
filter (for a no-field query, every data row). -/
theorem c1_delete_amended :
    (∀ values : List (List Cell), sheetDelete values none = .error .invalidArgument) ∧
    (∀ (values : List (List Cell)) (q : QueryObj), values.length ≤ 2000000 →
        sheetDelete values (some q) =
          .ok ⟨((valuesToData values {}).docs.filter (buildFilterFn (some q))).map
            (fun d => jsLookup d "_row")⟩) := by
  refine ⟨fun values => rfl, fun values q hl => ?_⟩
  rw [show sheetDelete values (some q) =
      .ok ⟨(sheetFind values (some q) {}).docs.map (fun d => jsLookup d "_row")⟩ from rfl,
    sheetFind_default_docs values q hl]

theorem c1_delete_amended_witness :
    sheetDelete [[some "h"], [some "x"]] (some [("h", QVal.qstr "x")]) =
      .ok ⟨((valuesToData [[some "h"], [some "x"]] {}).docs.filter
          (buildFilterFn (some [("h", QVal.qstr "x")]))).map
        (fun d => jsLookup d "_row")⟩ :=
  c1_delete_amended.2 _ _ (by norm_num)

/-- C2, code-bug evidence: `findOne` forwards `limit: 1` into `find`, and
`find` passes the same options object to `list`, so only row 1 — the header
row — is ever read and `findOne` returns no document, even though `find`
without pagination returns exactly one matching document.  The claim (and
the function's own doc comment, "Find one row that matched the query") says
the single matching document is returned. -/
theorem c2_findOne_code_bug :
    sheetFindOne [[some "name"], [some "a"]] (some [("name", QVal.qstr "a")]) {}
      = none ∧
    (sheetFind [[some "name"], [some "a"]] (some [("name", QVal.qstr "a")]) {}).docs
      = [[("_row", JsVal.n 2), ("name", JsVal.s "a")]] := by
  constructor <;> rfl

/-- The maximum amount by which a target row's implied column count exceeds
the sheet's current column count — the `addColumns` the spec describes. -/
def maxColumnOverrun (sheet : SheetInfo) (rows : List (Nat × RowData)) : Nat :=
  rows.foldl (fun acc item => max acc ((dataToValue item.2).length - sheet.columnCount)) 0

/-- C3, code-bug evidence: for a target row of two cells on a sheet with
`columnCount = 1` the implied column overrun is 1, so the claim (and spec)
require an expand call growing the columns before the value write; but the
source compares the dense row *array* itself against `columnCount`
(`value > selectedSheet.columnCount`, a slip for `value.length`), the array
coerces to `NaN`, and the upsert update issues no expand call at all — the
only call is the batched value write. -/
theorem c3_update_expand_code_bug :
    maxColumnOverrun ⟨0, "S", 0, 5, 1, [[some "h"]]⟩
        (updateRowsOf (.arrU [(1, .arr [some "a", some "b"])])) = 1 ∧
    (updateSt ⟨some ⟨[⟨0, "S", 0, 5, 1, [[some "h"]]⟩]⟩⟩ none
        (some (.arrU [(1, .arr [some "a", some "b"])])) .omitted true).2.1 =
      [.valuesBatchUpdate [⟨⟨"S", "A", some 1, "ZZ", some 1⟩, [[some "a", some "b"]]⟩]] := by
  constructor <;> rfl

/-- C4, counterexample: a successful `expand` does not leave the cache
absent — `expand` never touches `this.data`, so with a populated cache and a
non-trivial row growth the cache stays populated. -/
theorem c4_expand_cache_counterexample :
    (expandSt ⟨some ⟨[⟨0, "S", 0, 5, 1, [[some "h"]]⟩]⟩⟩ 0 1 0).1.data ≠ none := by
  simp [expandSt]

/-- C4, amended: the cache is set absent immediately after every successful
`append`, `update` (when given data — an absent `data` argument returns
early without touching the cache), `delete`, `addSheet` and `deleteSheet`
call; `expand` itself never touches the cache (its caller `update`
invalidates after the subsequent value write). -/
theorem c4_cache_invalidation_amended :
    (∀ st resp d sel ares, (appendSt st resp d sel ares).2.2.isOk = true →
        (appendSt st resp d sel ares).1.data = none) ∧
    (∀ st resp u sel upsert, (updateSt st resp (some u) sel upsert).2.2.isOk = true →
        (updateSt st resp (some u) sel upsert).1.data = none) ∧
    (∀ st resp rows columns sel, (deleteSt st resp rows columns sel).2.2.isOk = true →
        (deleteSt st resp rows columns sel).1.data = none) ∧
    (∀ st title props, (addSheetSt st title props).1.data = none) ∧
    (∀ st resp sel, (deleteSheetSt st resp sel).2.2.isOk = true →
        (deleteSheetSt st resp sel).1.data = none) ∧
    (∀ st sheetId rows columns, (expandSt st sheetId rows columns).1 = st) := by
  refine ⟨?_, ?_, ?_, ?_, ?_, ?_⟩
  · intro st resp d sel ares h
    rcases hg : getSheetSt st resp sel with ⟨st', r⟩
    rcases r with e | os
    · simp [appendSt, hg, Except.isOk, Except.toBool] at h
    · rcases os with _ | sheet
      · simp [appendSt, hg, Except.isOk, Except.toBool] at h
      · simp only [appendSt, hg] at h ⊢
        split_ifs at h ⊢ <;> simp_all [Except.isOk, Except.toBool]
  · intro st resp u sel upsert h
    rcases hg : getSheetSt st resp sel with ⟨st', r⟩
    rcases r with e | os
    · simp [updateSt, hg, Except.isOk, Except.toBool] at h
    · rcases os with _ | sheet
      · simp [updateSt, hg, Except.isOk, Except.toBool] at h
      · simp [updateSt, hg]
  · intro st resp rows columns sel h
    rcases hg : getSheetSt st resp sel with ⟨st', r⟩
    rcases r with e | os
    · simp [deleteSt, hg, Except.isOk, Except.toBool] at h
    · rcases os with _ | sheet
      · simp [deleteSt, hg, Except.isOk, Except.toBool] at h
      · simp [deleteSt, hg]
  · intro st title props
    rfl
  · intro st resp sel h
    rcases hg : getSheetSt st resp sel with ⟨st', r⟩
    rcases r with e | os
    · simp [deleteSheetSt, hg, Except.isOk, Except.toBool] at h
    · rcases os with _ | sheet
      · simp [deleteSheetSt, hg, Except.isOk, Except.toBool] at h
      · simp [deleteSheetSt, hg]
  · intro st sheetId rows columns
    rfl

theorem c4_cache_invalidation_witness :
    (appendSt ⟨some ⟨[⟨0, "S", 0, 5, 1, [[some "h"]]⟩]⟩⟩ none
        (.multi [.arr [some "x"]]) .omitted ⟨"S", "A", 2, "A", 2, 1⟩).1.data = none ∧
    (updateSt ⟨some ⟨[⟨0, "S", 0, 5, 1, [[some "h"]]⟩]⟩⟩ none
        (some (.objU [(1, .arr [some "y"])])) .omitted true).1.data = none ∧
    (deleteSt ⟨some ⟨[⟨0, "S", 0, 5, 1, [[some "h"]]⟩]⟩⟩ none
        (some [2]) none .omitted).1.data = none ∧
    (expandSt ⟨some ⟨[⟨0, "S", 0, 5, 1, [[some "h"]]⟩]⟩⟩ 0 1 0).1 =
      ⟨some ⟨[⟨0, "S", 0, 5, 1, [[some "h"]]⟩]⟩⟩ :=
  ⟨c4_cache_invalidation_amended.1 _ _ _ _ _ (by rfl),
   c4_cache_invalidation_amended.2.1 _ _ _ _ _ (by rfl),
   c4_cache_invalidation_amended.2.2.1 _ _ _ _ _ (by rfl),
   c4_cache_invalidation_amended.2.2.2.2.2 _ _ _ _⟩

/-- C9, counterexample: on a loaded spreadsheet whose only sheet has id 5
and title `S`, the selector `X` matches nothing, and `getSheet` returns an
absent result to its caller instead of failing with `NotFound`. -/
theorem c9_getSheet_counterexample :
    (getSheetSt ⟨some ⟨[⟨5, "S", 0, 5, 1, []⟩]⟩⟩ none (.str "X")).2 = .ok none := by
  rfl

/-- C9, amended: `getSheet` fails with `NotFound` only when the spreadsheet
snapshot itself cannot be loaded; on a loaded spreadsheet it returns the
`find` result as is — absent when no sheet matches — and it is each calling
Adapter operation (`list`, `append`, `update` given data, `delete`,
`deleteSheet`) that fails with `NotFound` on the absent sheet, before
issuing any transport call. -/
theorem c9_getSheet_amended :
    (∀ st resp sel, (loadSt st resp).2 = none →
        (getSheetSt st resp sel).2 = .error .notFound) ∧
    (∀ st resp sel d, (loadSt st resp).2 = some d →
        (getSheetSt st resp sel).2 = .ok (getSheetD d sel)) ∧
    (∀ st resp sel start limit fresh freshResp st',
        getSheetSt st resp sel = (st', .ok none) →
        (listSt st resp sel start limit fresh freshResp).2.1 = [] ∧
        (listSt st resp sel start limit fresh freshResp).2.2 = .error .notFound) ∧
    (∀ st resp d sel ares st', getSheetSt st resp sel = (st', .ok none) →
        (appendSt st resp d sel ares).2.1 = [] ∧
        (appendSt st resp d sel ares).2.2 = .error .notFound) ∧
    (∀ st resp u sel upsert st', getSheetSt st resp sel = (st', .ok none) →
        (updateSt st resp (some u) sel upsert).2.1 = [] ∧
        (updateSt st resp (some u) sel upsert).2.2 = .error .notFound) ∧
    (∀ st resp rows columns sel st', getSheetSt st resp sel = (st', .ok none) →
        (deleteSt st resp rows columns sel).2.1 = [] ∧
        (deleteSt st resp rows columns sel).2.2 = .error .notFound) ∧
    (∀ st resp sel st', getSheetSt st resp sel = (st', .ok none) →
        (deleteSheetSt st resp sel).2.1 = [] ∧
        (deleteSheetSt st resp sel).2.2 = .error .notFound) := by
  refine ⟨?_, ?_, ?_, ?_, ?_, ?_, ?_⟩
  · intro st resp sel h
    rcases hl : loadSt st resp with ⟨st2, sd⟩
    rw [hl] at h
    simp only at h
    subst h
    simp [getSheetSt, hl]
  · intro st resp sel d h
    rcases hl : loadSt st resp with ⟨st2, sd⟩
    rw [hl] at h
    simp only at h
    subst h
    simp [getSheetSt, hl]
  · intro st resp sel start limit fresh freshResp st' h
    exact ⟨by simp [listSt, h], by simp [listSt, h]⟩
  · intro st resp d sel ares st' h
    exact ⟨by simp [appendSt, h], by simp [appendSt, h]⟩
  · intro st resp u sel upsert st' h
    exact ⟨by simp [updateSt, h], by simp [updateSt, h]⟩
  · intro st resp rows columns sel st' h
    exact ⟨by simp [deleteSt, h], by simp [deleteSt, h]⟩
  · intro st resp sel st' h
    exact ⟨by simp [deleteSheetSt, h], by simp [deleteSheetSt, h]⟩

theorem c9_getSheet_amended_witness :
    (getSheetSt ⟨none⟩ none (.str "X")).2 = .error .notFound ∧
    (getSheetSt ⟨some ⟨[⟨5, "S", 0, 5, 1, []⟩]⟩⟩ none (.str "X")).2 =
      .ok (getSheetD ⟨[⟨5, "S", 0, 5, 1, []⟩]⟩ (.str "X")) ∧
    (listSt ⟨some ⟨[⟨5, "S", 0, 5, 1, []⟩]⟩⟩ none (.str "X") 1 1 false none).2.2 =
      .error .notFound ∧
    (appendSt ⟨some ⟨[⟨5, "S", 0, 5, 1, []⟩]⟩⟩ none (.multi [.arr [some "x"]])
        (.str "X") ⟨"S", "A", 2, "A", 2, 1⟩).2.2 = .error .notFound ∧
    (updateSt ⟨some ⟨[⟨5, "S", 0, 5, 1, []⟩]⟩⟩ none
        (some (.objU [(1, .arr [some "y"])])) (.str "X") true).2.2 =
      .error .notFound ∧
    (deleteSt ⟨some ⟨[⟨5, "S", 0, 5, 1, []⟩]⟩⟩ none (some [2]) none (.str "X")).2.2 =
      .error .notFound ∧
    (deleteSheetSt ⟨some ⟨[⟨5, "S", 0, 5, 1, []⟩]⟩⟩ none (.str "X")).2.2 =
      .error .notFound :=
  ⟨c9_getSheet_amended.1 _ _ _ rfl,
   c9_getSheet_amended.2.1 _ _ _ _ rfl,
   (c9_getSheet_amended.2.2.1 _ _ _ _ _ _ _ _ rfl).2,
   (c9_getSheet_amended.2.2.2.1 _ _ _ _ _ _ rfl).2,
   (c9_getSheet_amended.2.2.2.2.1 _ _ _ _ _ _ rfl).2,
   (c9_getSheet_amended.2.2.2.2.2.1 _ _ _ _ _ _ rfl).2,
   (c9_getSheet_amended.2.2.2.2.2.2 _ _ _ _ rfl).2⟩

/-- C6, counterexample: for ragged input rows `[["a","b"], ["c"]]` with the
service reporting inserted range `'S'!B2:C3`, the corrective write pads the
second row with `endColumnIndex − rowLength = 2` empty cells, not
`startColumnIndex − 1 = 1` as the claim states (the two agree only for rows
spanning the full reported width). -/
theorem c6_append_pad_counterexample :
    (appendSt ⟨some ⟨[⟨0, "S", 0, 5, 1, [[some "h"]]⟩]⟩⟩ none
        (.multi [.arr [some "a", some "b"], .arr [some "c"]]) .omitted
        ⟨"S", "B", 2, "C", 3, 2⟩).2.1 =
      [.valuesAppend ⟨"S", "A", none, "ZZ", none⟩ [[some "a", some "b"], [some "c"]],
       .valuesBatchUpdate [⟨⟨"S", "A", some 2, "ZZ", some 3⟩,
          [[some "a", some "b", some ""], [some "c", some "", some ""]]⟩]] ∧
    [some "c", some "", some ""] ≠
      [some "c"] ++ List.replicate (columnLetterToIndexS "B" - 1) ((some "") : Cell) := by
  exact ⟨rfl, by decide⟩

/-- C6, amended: when the reported insertion starts at column A no
corrective call is issued; when it starts elsewhere (and every row fits the
reported end column — otherwise the JS code throws `RangeError`) exactly one
corrective batched range write follows the append call, re-anchored at
column A and covering exactly the inserted row span, each row padded on the
right out to the reported end column index — a pad of
`endColumnIndex − rowLength` empty cells, which equals the claim's
`startColumnIndex − 1` exactly when the row spans the full reported range
width. -/
theorem c6_append_corrective_amended :
    ∀ st resp d sel ares st' sheet,
      getSheetSt st resp sel = (st', .ok (some sheet)) →
      (ares.startColL = "A" →
        (appendSt st resp d sel ares).2.1 =
          [.valuesAppend ⟨sheet.title, "A", none, "ZZ", none⟩
            ((appendItems d).map dataToValue)]) ∧
      (ares.startColL ≠ "A" →
        (∀ v ∈ (appendItems d).map dataToValue,
            v.length ≤ columnLetterToIndexS ares.endColL) →
        (appendSt st resp d sel ares).2.1 =
          [.valuesAppend ⟨sheet.title, "A", none, "ZZ", none⟩
            ((appendItems d).map dataToValue),
           .valuesBatchUpdate [⟨⟨sheet.title, "A", some ares.startRow, "ZZ", some ares.endRow⟩,
              ((appendItems d).map dataToValue).map (fun v =>
                v ++ List.replicate (columnLetterToIndexS ares.endColL - v.length)
                  (some ""))⟩]]) ∧
      (∀ v : List Cell,
        1 ≤ columnLetterToIndexS ares.startColL →
        columnLetterToIndexS ares.startColL ≤ columnLetterToIndexS ares.endColL →
        v.length = columnLetterToIndexS ares.endColL -
          columnLetterToIndexS ares.startColL + 1 →
        columnLetterToIndexS ares.endColL - v.length =
          columnLetterToIndexS ares.startColL - 1) := by
  intro st resp d sel ares st' sheet hg
  refine ⟨?_, ?_, ?_⟩
  · intro hA
    simp only [appendSt, hg]
    rw [if_pos hA]
  · intro hA hfit
    have hcond : ((appendItems d).map dataToValue).all
        (fun v => v.length ≤ columnLetterToIndexS ares.endColL) = true := by
      simp only [List.all_eq_true, decide_eq_true_eq]
      exact hfit
    simp only [appendSt, hg]
    rw [if_neg hA, if_pos hcond]
  · intro v h1 h2 h3
    omega

theorem c6_append_corrective_witness :
    (appendSt ⟨some ⟨[⟨0, "S", 0, 5, 1, [[some "h"]]⟩]⟩⟩ none
        (.multi [.arr [some "a", some "b"], .arr [some "c"]]) .omitted
        ⟨"S", "B", 2, "C", 3, 2⟩).2.1 =
      [.valuesAppend ⟨"S", "A", none, "ZZ", none⟩
        ((appendItems (.multi [.arr [some "a", some "b"], .arr [some "c"]])).map dataToValue),
       .valuesBatchUpdate [⟨⟨"S", "A", some 2, "ZZ", some 3⟩,
          ((appendItems (.multi [.arr [some "a", some "b"], .arr [some "c"]])).map
              dataToValue).map (fun v =>
            v ++ List.replicate (columnLetterToIndexS "C" - v.length) (some ""))⟩]] :=
  ((c6_append_corrective_amended _ _ _ _ _ _ _ rfl).2.1 (by decide) (by decide))

/-- Positional decimal value of a digit list, most significant digit first —
the spec's "parses the existing value as an integer" for digit strings. -/
def specDecimal : List Char → Nat
  | [] => 0
  | c :: t => (c.toNat - 48) * 10 ^ t.length + specDecimal t

theorem digitsFold_aux (l : List Char) :
    ∀ a, l.foldl (fun a c => 10 * a + (c.toNat - 48)) a =
      a * 10 ^ l.length + specDecimal l := by
  induction l with
  | nil => intro a; simp [specDecimal]
  | cons c t ih =>
      intro a
      simp only [List.foldl_cons, ih, specDecimal, List.length_cons]
      ring

theorem digitsFold_eq_specDecimal (l : List Char) : digitsFold l = specDecimal l := by
  simpa [digitsFold] using digitsFold_aux l 0

theorem takeWhile_of_all {p : Char → Bool} (l : List Char) (h : l.all p = true) :
    l.takeWhile p = l := by
  induction l with
  | nil => rfl
  | cons c t ih =>
      simp only [List.all_cons, Bool.and_eq_true] at h
      simp [List.takeWhile_cons, h.1, ih h.2]

theorem parseIntJS_digits (s : String) (hd : digitsOnly s.data = true) :
    parseIntJS s = some ((specDecimal s.data : Nat) : Int) := by
  rcases hs : s.data with _ | ⟨c, t⟩
  · rw [hs] at hd; simp [digitsOnly] at hd
  · have hall : (c :: t).all isDigitC = true := by
      rw [hs] at hd
      simp only [digitsOnly, Bool.and_eq_true] at hd
      exact hd.2
    have hc : isDigitC c = true := by
      simp only [List.all_cons, Bool.and_eq_true] at hall
      exact hall.1
    have hcm : c ≠ '-' := by
      intro h; rw [h] at hc; exact absurd hc (by decide)
    have hcp : c ≠ '+' := by
      intro h; rw [h] at hc; exact absurd hc (by decide)
    have hsp : isJsSpace c = false := by
      simp only [isDigitC, Bool.and_eq_true, decide_eq_true_eq] at hc
      simp only [isJsSpace, Bool.or_eq_false_iff, decide_eq_false_iff_not]
      omega
    have hpre : parseIntJS.digitsPrefix (c :: t) = some (digitsFold (c :: t)) := by
      unfold parseIntJS.digitsPrefix
      rw [takeWhile_of_all _ hall]
      simp
    unfold parseIntJS
    rw [hs, List.dropWhile_cons, hsp]
    simp only [Bool.false_eq_true, if_false, if_neg hcm, if_neg hcp]
    simp [hpre, digitsFold_eq_specDecimal]

/-- The integral reading of a string in the sense of the spec's words
("parses the existing value as an integer, defaulting to 0 when the value is
non-numeric"): an optionally negated digit string is numeric. -/
def specIntVal (s : String) : Option Int :=
  match s.data with
  | '-' :: t => if digitsOnly t then some (-(specDecimal t : Int)) else none
  | t => if digitsOnly t then some (specDecimal t : Int) else none

/-- C7, counterexample: the claim reads the current value as an integer,
defaulting to 0 only when it is non-numeric; the numeric value `"-5"` would
then give `3 + (-5) = "-2"`, but the source's `/^\d+$/` test rejects the
sign, treats `"-5"` as 0, and `$inc: 3` yields `"3"`. -/
theorem c7_inc_counterexample :
    updateLineValue (.uops [("$inc", .i 3)]) (.s "-5") = some "3" ∧
    specIntVal "-5" = some (-5) ∧
    toString ((3 : Int) + ((specIntVal "-5").getD 0)) = "-2" ∧
    updateLineValue (.uops [("$inc", .i 3)]) (.s "-5") ≠
      some (toString ((3 : Int) + ((specIntVal "-5").getD 0))) := by
  have h1 : updateLineValue (.uops [("$inc", .i 3)]) (.s "-5") = some "3" := rfl
  have h2 : specIntVal "-5" = some (-5) := rfl
  have h3 : toString ((3 : Int) + ((specIntVal "-5").getD 0)) = "-2" := by
    rw [h2]; rfl
  refine ⟨h1, h2, h3, ?_⟩
  rw [h3, h1]
  simp only [ne_eq, Option.some.injEq]
  decide

/-- C7, amended: `$inc` adds its parsed operand to the current value's
numeric reading, where a string reads as its (nonnegative) decimal value
only when it consists solely of digits — any other string, including
negative numerals, reads as 0 — a native number reads as itself, and the
result is stored as a string; in particular `"5"` with `$inc: 3` yields
`"8"` and `""` with `$inc: 3` yields `"3"`. -/
theorem c7_inc_amended :
    (∀ (s : String) (k : Int),
        updateLineValue (.uops [("$inc", .i k)]) (.s s) =
          some (toString (k +
            (if digitsOnly s.data then ((specDecimal s.data : Nat) : Int) else 0)))) ∧
    (∀ ov k : Int,
        updateLineValue (.uops [("$inc", .i k)]) (.n ov) = some (toString (k + ov))) ∧
    updateLineValue (.uops [("$inc", .i 3)]) (.s "5") = some "8" ∧
    updateLineValue (.uops [("$inc", .i 3)]) (.s "") = some "3" := by
  refine ⟨?_, fun ov k => rfl, rfl, rfl⟩
  intro s k
  have hbase : updateLineValue (.uops [("$inc", .i k)]) (.s s) =
      some (toString (k + (if digitsOnly s.data then (parseIntJS s).getD 0 else 0))) := rfl
  rw [hbase]
  by_cases hd : digitsOnly s.data = true
  · rw [if_pos hd, if_pos hd, parseIntJS_digits s hd]
    rfl
  · have hd' : digitsOnly s.data = false := by
      cases h : digitsOnly s.data
      · rfl
      · exact absurd h hd
    rw [if_neg (by simp [hd']), if_neg (by simp [hd'])]

theorem c7_inc_amended_witness :
    updateLineValue (.uops [("$inc", .i 7)]) (.s "20") =
      some (toString ((7 : Int) +
        (if digitsOnly "20".data then ((specDecimal "20".data : Nat) : Int) else 0))) :=
  c7_inc_amended.1 "20" 7

/-- C8: `columnToLetter` and `columnLetterToIndex` are mutual inverses — for
every valid letter sequence (non-empty, letters A–Z, i.e. character codes
65–90) the round trip is the identity — and the indices 1, 26, 27, 52, 703
map to `"A"`, `"Z"`, `"AA"`, `"AZ"`, `"AAA"` respectively. -/
theorem c8_column_letter_inverses :
    (∀ s : List Nat, s ≠ [] → (∀ c ∈ s, 65 ≤ c ∧ c ≤ 90) →
        columnToLetter (columnLetterToIndex s) = s) ∧
    columnToLetterStr 1 = "A" ∧ columnToLetterStr 26 = "Z" ∧
    columnToLetterStr 27 = "AA" ∧ columnToLetterStr 52 = "AZ" ∧
    columnToLetterStr 703 = "AAA" := by
  refine ⟨fun s _ hv => columnToLetter_columnLetterToIndex s hv, ?_, ?_, ?_, ?_, ?_⟩
  · rw [columnToLetterStr, columnToLetter_one]; decide
  · rw [columnToLetterStr, columnToLetter_26]; decide
  · rw [columnToLetterStr, columnToLetter_27]; decide
  · rw [columnToLetterStr, columnToLetter_52]; decide
  · rw [columnToLetterStr, columnToLetter_703]; decide

theorem c8_column_letter_inverses_witness :
    columnToLetter (columnLetterToIndex [65, 66, 90]) = [65, 66, 90] :=
  c8_column_letter_inverses.1 [65, 66, 90] (by simp) (by decide)

theorem foldl_append_nil {α β : Type _} (g : β → List α) (ops : List β)
    (h : ∀ p ∈ ops, g p = []) :
    ∀ acc : List α, ops.foldl (fun acc p => acc ++ g p) acc = acc := by
  induction ops with
  | nil => intro acc; rfl
  | cons p t ih =>
      intro acc
      rw [List.foldl_cons, h p (by simp), List.append_nil]
      exact ih (fun p' h' => h p' (by simp [h'])) acc

theorem opTermType_none {op : String} (h : op ∉ recognizedOps) :
    opTermType op = none := by
  simp only [recognizedOps, List.mem_cons, List.mem_singleton, not_or] at h
  obtain ⟨h1, h2, h3, h4, h5, h6⟩ := h
  simp [opTermType, h1, h2, h3, h4, h5, h6]

theorem termsFor_qobj_nil (key : String) (ops : List (String × QOpArg))
    (h : ∀ p ∈ ops, p.1 ∉ recognizedOps) : termsFor key (.qobj ops) = [] :=
  foldl_append_nil _ ops (fun p hp => by rw [opTermType_none (h p hp)]) []

/-- C10: query compilation silently ignores unrecognised operator keys — a
query whose every field term is an object with only keys outside
`{$contains, $gt, $lt, $lte, $gte, $empty}` compiles to no terms at all, so
the filter matches every document, and `delete` with such a query targets
every data row. -/
theorem c10_unrecognized_ops_ignored (q : QueryObj)
    (h : ∀ kv ∈ q, ∃ ops, kv.2 = QVal.qobj ops ∧ ∀ p ∈ ops, p.1 ∉ recognizedOps) :
    buildFilter (some q) = [] ∧
    (∀ item : Doc, buildFilterFn (some q) item = true) ∧
    (∀ values : List (List Cell), values.length ≤ 2000000 →
        sheetDelete values (some q) =
          .ok ⟨(valuesToData values {}).docs.map (fun d => jsLookup d "_row")⟩) := by
  have hbf : buildFilter (some q) = [] :=
    foldl_append_nil _ q (fun kv hkv => by
      obtain ⟨ops, he, hops⟩ := h kv hkv
      rw [he]
      exact termsFor_qobj_nil kv.1 ops hops) []
  refine ⟨hbf, fun item => by simp [buildFilterFn, hbf], fun values hl => ?_⟩
  rw [show sheetDelete values (some q) =
      .ok ⟨(sheetFind values (some q) {}).docs.map (fun d => jsLookup d "_row")⟩ from rfl,
    sheetFind_default_docs values q hl,
    List.filter_eq_self.mpr (fun a _ => by simp [buildFilterFn, hbf])]

theorem c10_unrecognized_ops_witness :
    buildFilter (some [("f", QVal.qobj [("$foo", QOpArg.i 1)])]) = [] ∧
    buildFilterFn (some [("f", QVal.qobj [("$foo", QOpArg.i 1)])]) [("x", .s "1")] = true ∧
    sheetDelete [[some "h"], [some "x"]] (some [("f", QVal.qobj [("$foo", QOpArg.i 1)])]) =
      .ok ⟨(valuesToData [[some "h"], [some "x"]] {}).docs.map
        (fun d => jsLookup d "_row")⟩ := by
  have h := c10_unrecognized_ops_ignored [("f", QVal.qobj [("$foo", QOpArg.i 1)])] ?hq
  case hq =>
    intro kv hkv
    simp only [List.mem_singleton] at hkv
    subst hkv
    exact ⟨[("$foo", QOpArg.i 1)], rfl, by
      intro p hp
      simp only [List.mem_singleton] at hp
      subst hp
      decide⟩
  exact ⟨h.1, h.2.1 _, h.2.2 _ (by norm_num)⟩

/-! ### Association-list and header lemmas for C5 -/

theorem jsLookup_jsSet_self (json : Doc) (k : String) (v : JsVal) :
    jsLookup (jsSet json k v) k = some v := by
  induction json with
  | nil => simp [jsSet, jsLookup]
  | cons p t ih =>
      obtain ⟨k0, v0⟩ := p
      by_cases h : k0 = k
      · simp [jsSet, jsLookup, h]
      · simp [jsSet, jsLookup, h, ih]

theorem jsLookup_jsSet_ne (json : Doc) (k k' : String) (v : JsVal) (hne : k' ≠ k) :
    jsLookup (jsSet json k v) k' = jsLookup json k' := by
  induction json with
  | nil => simp [jsSet, jsLookup, Ne.symm hne]
  | cons p t ih =>
      obtain ⟨k0, v0⟩ := p
      by_cases h : k0 = k
      · subst h
        have h2 : ¬ k0 = k' := fun e => hne (e.symm)
        simp [jsSet, jsLookup, h2]
      · simp only [jsSet, if_neg h, jsLookup]
        split
        · rfl
        · exact ih

/-- The truthy name carried by one header cell. -/
def cellName : Cell → Option String
  | some h => if h = "" then none else some h
  | none => none

/-- The truthy names of a header, in column order. -/
def headerNames (header : List Cell) : List String :=
  header.filterMap cellName

theorem headerName_eq_bind (header : List Cell) (j : Nat) :
    headerName header j = (header[j]?).bind cellName := by
  unfold headerName
  rcases h : header[j]? with _ | c
  · rfl
  · cases c <;> rfl

theorem headerName_mem {header : List Cell} {j : Nat} {h : String}
    (hh : headerName header j = some h) : h ∈ headerNames header := by
  rw [headerName_eq_bind] at hh
  rcases hcell : header[j]? with _ | c
  · rw [hcell] at hh; simp at hh
  · rw [hcell] at hh
    simp only [Option.some_bind] at hh
    exact List.mem_filterMap.mpr ⟨c, List.getElem?_mem hcell, hh⟩

theorem filterMap_getD_inj {α β : Type _} {f : α → Option β} :
    ∀ {l : List α}, (l.filterMap f).Nodup →
      ∀ {i j : Nat} {b : β}, (l[i]?).bind f = some b → (l[j]?).bind f = some b →
        i = j := by
  intro l
  induction l with
  | nil =>
      intro _ i j b hi _
      simp at hi
  | cons a t ih =>
      intro hn i j b hi hj
      rw [List.filterMap_cons] at hn
      have hmem : ∀ {m : Nat}, (t[m]?).bind f = some b → b ∈ t.filterMap f := by
        intro m hm
        rcases ht : t[m]? with _ | x
        · rw [ht] at hm; simp at hm
        · rw [ht] at hm
          simp only [Option.some_bind] at hm
          exact List.mem_filterMap.mpr ⟨x, List.getElem?_mem ht, hm⟩
      match i, j with
      | 0, 0 => rfl
      | 0, j+1 =>
          exfalso
          simp only [List.getElem?_cons_zero, Option.some_bind] at hi
          simp only [List.getElem?_cons_succ] at hj
          rw [hi] at hn
          exact (List.nodup_cons.mp hn).1 (hmem hj)
      | i+1, 0 =>
          exfalso
          simp only [List.getElem?_cons_zero, Option.some_bind] at hj
          simp only [List.getElem?_cons_succ] at hi
          rw [hj] at hn
          exact (List.nodup_cons.mp hn).1 (hmem hi)
      | i+1, j+1 =>
          simp only [List.getElem?_cons_succ] at hi hj
          have htn : (t.filterMap f).Nodup := by
            rcases hfa : f a with _ | b'
            · rwa [hfa] at hn
            · rw [hfa] at hn; exact hn.of_cons
          have := ih htn hi hj
          omega

theorem headerName_inj {header : List Cell} (hn : (headerNames header).Nodup)
    {i j : Nat} {h : String} (hi : headerName header i = some h)
    (hj : headerName header j = some h) : i = j := by
  have hi' : (header[i]?).bind cellName = some h := by
    rw [← headerName_eq_bind]; exact hi
  have hj' : (header[j]?).bind cellName = some h := by
    rw [← headerName_eq_bind]; exact hj
  exact filterMap_getD_inj hn hi' hj'

/-- The per-cell step of `rowToDoc` without the `column` option. -/
def rowFoldNamed (header : List Cell) (json : Doc) (jv : Nat × Cell) : Doc :=
  match headerName header jv.1 with
  | some h => jsSet json h (.s (cellStr jv.2))
  | none => json

theorem rowFoldNamed_step (header : List Cell) (json : Doc) (j : Nat) (v : Cell) :
    rowFoldNamed header json (j, v) =
      match headerName header j with
      | some h => jsSet json h (.s (cellStr v))
      | none => json := rfl

theorem rowToDoc_eq_fold (header : List Cell) (opts : FindOpts) (rn : Nat)
    (value : List Cell) (hcol : opts.column = false) :
    rowToDoc header opts rn value =
      value.enum.foldl (rowFoldNamed header) [("_row", .n rn)] := by
  unfold rowToDoc
  refine List.foldl_ext _ _ _ (fun json jv _ => ?_)
  rw [hcol]
  simp only [Bool.false_eq_true, if_false]
  rfl

theorem enum_concat_eq (value : List Cell) (v : Cell) :
    (value ++ [v]).enum = value.enum ++ [(value.length, v)] := by
  simp [List.enum_append]

theorem foldDoc_lookup_row (header : List Cell) (hrow : "_row" ∉ headerNames header)
    (rn : Nat) (value : List Cell) :
    jsLookup (value.enum.foldl (rowFoldNamed header) [("_row", JsVal.n rn)]) "_row" =
      some (.n rn) := by
  induction value using List.reverseRecOn with
  | nil => simp [jsLookup]
  | append_singleton value v ih =>
      rw [enum_concat_eq, List.foldl_append, List.foldl_cons, List.foldl_nil,
        rowFoldNamed_step]
      rcases hname : headerName header value.length with _ | h2
      · simp only [hname]
        exact ih
      · simp only [hname]
        have hne : ("_row" : String) ≠ h2 := fun e => hrow (e ▸ headerName_mem hname)
        rw [jsLookup_jsSet_ne _ _ _ _ hne]
        exact ih

theorem foldDoc_lookup_found (header : List Cell)
    (hnodup : (headerNames header).Nodup) (rn : Nat) :
    ∀ (value : List Cell) (j : Nat) (h : String), j < value.length →
      headerName header j = some h →
      jsLookup (value.enum.foldl (rowFoldNamed header) [("_row", JsVal.n rn)]) h =
        some (.s (cellStr (value.getD j none))) := by
  intro value
  induction value using List.reverseRecOn with
  | nil => intro j h hj; simp at hj
  | append_singleton value v ih =>
      intro j h hj hh
      rcases Nat.lt_succ_iff_lt_or_eq.mp (by simpa using hj) with hlt | heq
      · have hgetD : (value ++ [v]).getD j none = value.getD j none :=
          List.getD_append _ _ _ _ hlt
        rw [enum_concat_eq, List.foldl_append, List.foldl_cons, List.foldl_nil,
          rowFoldNamed_step, hgetD]
        rcases hname : headerName header value.length with _ | h2
        · simp only [hname]
          exact ih j h hlt hh
        · simp only [hname]
          have hne : h ≠ h2 := by
            intro e
            subst e
            exact absurd (headerName_inj hnodup hh hname) (by omega)
          rw [jsLookup_jsSet_ne _ _ _ _ hne]
          exact ih j h hlt hh
      · subst heq
        rw [enum_concat_eq, List.foldl_append, List.foldl_cons, List.foldl_nil,
          rowFoldNamed_step]
        simp only [hh]
        rw [jsLookup_jsSet_self]
        have : (value ++ [v]).getD value.length none = v := by
          rw [List.getD_append_right _ _ _ _ (le_refl _)]
          simp [List.getD]
        rw [this]

theorem foldDoc_lookup_none (header : List Cell)
    (hnodup : (headerNames header).Nodup) (hrow : "_row" ∉ headerNames header)
    (rn : Nat) :
    ∀ (value : List Cell) (j : Nat) (h : String), value.length ≤ j →
      headerName header j = some h →
      jsLookup (value.enum.foldl (rowFoldNamed header) [("_row", JsVal.n rn)]) h =
        none := by
  intro value
  induction value using List.reverseRecOn with
  | nil =>
      intro j h _ hh
      have hne2 : h ≠ "_row" := fun e => hrow (e ▸ headerName_mem hh)
      have hne3 : ¬("_row" = h) := fun e => hne2 e.symm
      simp [jsLookup, hne3]
  | append_singleton value v ih =>
      intro j h hj hh
      have hj' : value.length + 1 ≤ j := by simpa using hj
      rw [enum_concat_eq, List.foldl_append, List.foldl_cons, List.foldl_nil,
        rowFoldNamed_step]
      rcases hname : headerName header value.length with _ | h2
      · simp only [hname]
        exact ih j h (by omega) hh
      · simp only [hname]
        have hne : h ≠ h2 := by
          intro e
          subst e
          exact absurd (headerName_inj hnodup hh hname) (by omega)
        rw [jsLookup_jsSet_ne _ _ _ _ hne]
        exact ih j h (by omega) hh

/-- C5, counterexample: with header `["a", "b"]` and the shorter data row
`["x"]`, the emitted document is `{_row: 2, a: "x"}` — it has no field `b`
at all, while the claim requires a field `b` with value `""` ("including
rows shorter than the header"). -/
theorem c5_valuesToData_counterexample :
    (valuesToData [[some "a", some "b"], [some "x"]] {}).docs =
      [[("_row", JsVal.n 2), ("a", JsVal.s "x")]] ∧
    jsLookup [("_row", JsVal.n 2), ("a", JsVal.s "x")] "b" = none := by
  exact ⟨rfl, rfl⟩

/-- C5, amended: under the default projection (no column-letter fields) and
a header whose truthy names are distinct and do not collide with the
reserved `_row` field, every document emitted by `valuesToData` carries its
`_row`, and has a field for a named header column exactly when the column
position lies within its source row's cell list — with value the cell's
value or the empty string for an empty/`null` cell; named header columns at
positions beyond the row's length are left unset. -/
theorem c5_valuesToData_amended :
    ∀ (values : List (List Cell)) (opts : FindOpts),
      opts.column = false →
      (headerNames ((values.headD []).map (hdrCell opts.lowercase))).Nodup →
      "_row" ∉ headerNames ((values.headD []).map (hdrCell opts.lowercase)) →
      ∀ doc ∈ (valuesToData values opts).docs,
        ∃ (i : Nat) (value : List Cell),
          values[i]? = some value ∧ i ≠ 0 ∧ rowIsBlank value = false ∧
          jsLookup doc "_row" =
            some (.n (((if opts.startRow ≠ 0 then opts.startRow + i - 1
              else i + 1 : Nat)) : Int)) ∧
          (∀ j h, j < value.length →
              headerName ((values.headD []).map (hdrCell opts.lowercase)) j = some h →
              jsLookup doc h = some (.s (cellStr (value.getD j none)))) ∧
          (∀ j h, value.length ≤ j →
              headerName ((values.headD []).map (hdrCell opts.lowercase)) j = some h →
              jsLookup doc h = none) := by
  intro values opts hcol hnodup hrow doc hdoc
  unfold valuesToData at hdoc
  by_cases hemp : values.isEmpty
  · rw [if_pos hemp] at hdoc
    simp at hdoc
  · rw [if_neg hemp] at hdoc
    obtain ⟨iv, hiv, hemit⟩ := List.mem_filterMap.mp hdoc
    obtain ⟨i, value⟩ := iv
    have hget : values[i]? = some value := List.mem_enum_iff_getElem?.mp hiv
    by_cases hskip : i = 0 ∨ rowIsBlank value
    · rw [if_pos hskip] at hemit
      simp at hemit
    · rw [if_neg hskip] at hemit
      push_neg at hskip
      obtain ⟨hi0, hblank⟩ := hskip
      have hdoc' : doc =
          rowToDoc ((values.headD []).map (hdrCell opts.lowercase)) opts
            (if opts.startRow ≠ 0 then opts.startRow + i - 1 else i + 1) value := by
        simpa using hemit.symm
      rw [hdoc', rowToDoc_eq_fold _ _ _ _ hcol]
      refine ⟨i, value, hget, hi0, by simpa using hblank,
        foldDoc_lookup_row _ hrow _ _,
        fun j h hj hh => foldDoc_lookup_found _ hnodup _ value j h hj hh,
        fun j h hj hh => foldDoc_lookup_none _ hnodup hrow _ value j h hj hh⟩

theorem c5_valuesToData_amended_witness :
    ∃ (i : Nat) (value : List Cell),
      ([[some "a", some "b"], [some "x"]] : List (List Cell))[i]? = some value ∧
      i ≠ 0 ∧ rowIsBlank value = false ∧
      jsLookup [("_row", JsVal.n 2), ("a", JsVal.s "x")] "_row" =
        some (.n (((if (0 : Nat) ≠ 0 then 0 + i - 1 else i + 1 : Nat)) : Int)) ∧
      (∀ j h, j < value.length →
          headerName ((([[some "a", some "b"], [some "x"]] :
              List (List Cell)).headD []).map (hdrCell false)) j = some h →
          jsLookup [("_row", JsVal.n 2), ("a", JsVal.s "x")] h =
            some (.s (cellStr (value.getD j none)))) ∧
      (∀ j h, value.length ≤ j →
          headerName ((([[some "a", some "b"], [some "x"]] :
              List (List Cell)).headD []).map (hdrCell false)) j = some h →
          jsLookup [("_row", JsVal.n 2), ("a", JsVal.s "x")] h = none) := by
  have h := c5_valuesToData_amended [[some "a", some "b"], [some "x"]] {}
    rfl (by decide) (by decide) [("_row", JsVal.n 2), ("a", JsVal.s "x")] (by decide)
  simpa using h

end Sheetbase
